import Mathlib

/-!
# Verification of the WNBA arbitrage detection core

Shallow embedding of the arbitrage detection engine
(`app/core/services/enhanced_arbitrage_engine.py`), the parallel processor's
resource managers (`app/core/services/parallel_arbitrage_processor.py`) and the
cross-market risk assessor (`app/core/services/cross_market_analyzer.py`).

Python `dict.get(k, default)` is modelled by `Option` fields plus `Option.getD`;
Python `float` arithmetic is modelled by exact rationals (`ℚ`), except where the
source takes a square root (`np.std`), which is modelled in `ℝ`; Python
exceptions (`ZeroDivisionError`, `StopIteration`, `KeyError`) are modelled by
`Except PyErr`; Python dicts are modelled by insertion-ordered association
lists with first-key lookup.
-/

namespace WNBA

/-- A Python exception that the engine's `try/except` blocks can absorb. -/
inductive PyErr where
  | zeroDivision
  | stopIteration
  | keyError
  deriving DecidableEq, Repr

/-- Python float division `a / b`: raises `ZeroDivisionError` when `b = 0`. -/
def pyDiv (a b : ℚ) : Except PyErr ℚ :=
  if b = 0 then .error .zeroDivision else .ok (a / b)

/-! ## Game data model (the JSON-ish dicts consumed by the engine)

An absent dict key is `none`; `outcome.get("price", 0)` etc. become `getD`. -/

/-- One outcome entry of a bookmaker market: `{"name": …, "price": …, "point": …}`. -/
structure Outcome where
  name : Option String
  price : Option ℚ
  point : Option ℚ
  deriving DecidableEq, Repr

/-- One market of a bookmaker: `{"key": …, "outcomes": […]}`. -/
structure Market where
  key : Option String
  outcomes : List Outcome
  deriving DecidableEq, Repr

/-- One bookmaker entry: `{"title": …, "key": …, "markets": […]}`. -/
structure Bookmaker where
  title : Option String
  key : Option String
  markets : List Market
  deriving DecidableEq, Repr

/-- Game data dict consumed by the detection entry points. -/
structure GameData where
  id : Option String
  home_team : Option String
  away_team : Option String
  sport_key : Option String
  bookmakers : List Bookmaker
  deriving DecidableEq, Repr

/-- Value stored per outcome in a best-odds dict.  The source stores
`{"price": …, "bookmaker": …}` for moneyline/totals and additionally
`"point"` for spreads; absent fields are `none`. -/
structure OddsInfo where
  price : ℚ
  bookmaker : Option String
  point : Option ℚ
  deriving DecidableEq, Repr

/-- Key of a best-odds dict entry.  Moneyline and totals key on the outcome
name; spreads key on the pair of outcome name and spread point (the source
formats this pair into the string `f"{team_name} {point:+.1f}"`). -/
abbrev BOKey := Option String × Option ℚ

/-- Insertion-ordered association list standing in for a Python dict. -/
abbrev OddsDict := List (BOKey × OddsInfo)

/-- First-match association-list lookup (Python dict indexing). -/
def lookupOD : OddsDict → BOKey → Option OddsInfo
  | [], _ => none
  | e :: t, k => if e.1 = k then some e.2 else lookupOD t k

/-- Python dict assignment `d[k] = v`: replace the value in place if the key
is present (keeping its insertion position), otherwise append at the end. -/
def setOD : OddsDict → BOKey → OddsInfo → OddsDict
  | [], k, v => [(k, v)]
  | e :: t, k, v => if e.1 = k then (k, v) :: t else e :: setOD t k v

/-- One iteration of the best-odds loops:
`if key not in best_odds or price > best_odds[key]["price"]: best_odds[key] = info`. -/
def stepBest (d : OddsDict) (q : BOKey × OddsInfo) : OddsDict :=
  match lookupOD d q.1 with
  | none => setOD d q.1 q.2
  | some old => if old.price < q.2.price then setOD d q.1 q.2 else d

/-- Fold a flat, iteration-ordered quote list into a best-odds dict. -/
def foldBest (qs : List (BOKey × OddsInfo)) : OddsDict :=
  qs.foldl stepBest []

/-- `bookmaker.get("title", bookmaker.get("key", "Unknown"))`. -/
def bookName (bm : Bookmaker) : String :=
  bm.title.getD (bm.key.getD "Unknown")

/-- The quotes visited by `_find_best_odds(game_data, market_type)`, flattened
in iteration order (bookmakers, then their markets with the requested key,
then outcomes), keeping exactly those with a truthy name and positive price
(`if team_name and price > 0`). -/
def validQuotes (g : GameData) (mt : String) : List (BOKey × OddsInfo) :=
  g.bookmakers.flatMap (fun bm =>
    (bm.markets.filter (fun m => m.key = some mt)).flatMap (fun m =>
      m.outcomes.filterMap (fun o =>
        match o.name with
        | none => none
        | some n =>
          if n ≠ "" ∧ 0 < o.price.getD 0 then
            some ((some n, none),
                  { price := o.price.getD 0, bookmaker := some (bookName bm), point := none })
          else none)))

/-- `EnhancedArbitrageEngine._find_best_odds`: best price per outcome name
across all bookmakers.  The source's three nested loops with a single mutable
dict are the fold of `stepBest` over the flattened quote sequence. -/
def findBestOdds (g : GameData) (mt : String) : OddsDict :=
  foldBest (validQuotes g mt)

/-! ## The enhanced arbitrage engine -/

/-- Constructor parameters of `EnhancedArbitrageEngine`.  The Python floats
`min_profit_threshold` and `max_stake_percentage` are exact rationals here;
`confidence_threshold` is compared against a real-valued confidence score. -/
structure EnhancedArbitrageEngine where
  min_profit_threshold : ℚ
  max_stake_percentage : ℚ
  enable_cross_market : Bool
  confidence_threshold : ℝ

/-- The engine with its default constructor arguments
`(1.0, 0.95, True, 0.7)`. -/
def defaultEngine : EnhancedArbitrageEngine :=
  { min_profit_threshold := 1
    max_stake_percentage := 0.95
    enable_cross_market := true
    confidence_threshold := 0.7 }

/-- `sum(1 / odds_info["price"] for odds_info in best_odds.values())` with
Python division semantics: raises `ZeroDivisionError` at the first zero
price. -/
def sumImpliedE : List (BOKey × OddsInfo) → Except PyErr ℚ
  | [] => .ok 0
  | e :: t =>
    match pyDiv 1 e.2.price with
    | .error err => .error err
    | .ok q =>
      match sumImpliedE t with
      | .error err => .error err
      | .ok s => .ok (q + s)

/-- Total implied probability of a best-odds dict (pure value, meaningful when
every price is nonzero). -/
def totalImplied (d : List (BOKey × OddsInfo)) : ℚ :=
  (d.map (fun e => 1 / e.2.price)).sum

/-- `self.bayesian_priors.get(f"{market_type}_accuracy", 0.8)`. -/
def bayesianPrior (mt : String) : ℚ :=
  if mt = "h2h" then 0.85
  else if mt = "spreads" then 0.78
  else if mt = "totals" then 0.72
  else 0.8

/-- `len(set(odds_info["bookmaker"] for odds_info in best_odds.values()))`. -/
def numBookmakers (best : List (BOKey × OddsInfo)) : ℕ :=
  ((best.map (fun e => e.2.bookmaker)).dedup).length

/-- `min(1.0, 0.5 + num_bookmakers * 0.1)`. -/
def bookmakerFactor (best : List (BOKey × OddsInfo)) : ℚ :=
  min 1 (1/2 + (numBookmakers best : ℚ) * (1/10))

/-- Arithmetic mean of a price list. -/
def meanQ (l : List ℚ) : ℚ := l.sum / l.length

/-- Population variance, as computed inside `np.std` (`ddof = 0`). -/
def varQ (l : List ℚ) : ℚ :=
  ((l.map (fun x => (x - meanQ l) ^ 2)).sum) / l.length

/-- `np.std(odds_values) if len(odds_values) > 1 else 0`. -/
noncomputable def oddsStd (l : List ℚ) : ℝ :=
  if 1 < l.length then Real.sqrt (varQ l) else 0

/-- `min(1.0, 0.7 + odds_std * 0.1)`. -/
noncomputable def distributionFactor (l : List ℚ) : ℝ :=
  min 1 (0.7 + oddsStd l * 0.1)

/-- `EnhancedArbitrageEngine._calculate_confidence_score`.  The source's
`game_data` parameter is unused by its body and omitted here; the body cannot
raise, so its `try/except` (default 0.5) is never exercised. -/
noncomputable def confidenceScore (best : List (BOKey × OddsInfo)) (mt : String) : ℝ :=
  min 1 (max 0 ((bayesianPrior mt * bookmakerFactor best : ℚ) *
    distributionFactor (best.map (fun e => e.2.price))))

/-- Build the `ArbitrageOpportunity` fields shared by all three detectors. -/
structure ArbitrageOpportunity where
  game_id : String
  home_team : String
  away_team : String
  sport_key : String
  market_type : String
  profit_margin : ℚ
  total_implied_probability : ℚ
  best_odds : OddsDict
  spread_value : Option ℚ
  total_value : Option ℚ
  confidence_score : ℝ

/-- The opportunity record a detector appends (`calculation_time`, a wall-clock
timestamp, is not modelled; `correlation_risk` stays at its default `None`). -/
noncomputable def mkOpportunity (g : GameData) (mt : String) (pm p : ℚ)
    (best : OddsDict) (sv tv : Option ℚ) : ArbitrageOpportunity :=
  { game_id := g.id.getD "unknown"
    home_team := g.home_team.getD "Unknown"
    away_team := g.away_team.getD "Unknown"
    sport_key := g.sport_key.getD "unknown"
    market_type := mt
    profit_margin := pm
    total_implied_probability := p
    best_odds := best
    spread_value := sv
    total_value := tv
    confidence_score := confidenceScore best mt }

/-- Body of `detect_moneyline_arbitrage` (inside its `try`):
find best odds, require ≥ 2 outcomes, compute `p = Σ 1/price`, emit one
opportunity when `p < 1`, the profit margin reaches the threshold and the
confidence score reaches the confidence threshold. -/
noncomputable def detectMoneylineBody (eng : EnhancedArbitrageEngine) (g : GameData) :
    Except PyErr (List ArbitrageOpportunity) :=
  let best := findBestOdds g "h2h"
  if best.length < 2 then .ok []
  else
    match sumImpliedE best with
    | .error e => .error e
    | .ok p =>
      if p < 1 then
        let pm := (1 - p) * 100
        if eng.min_profit_threshold ≤ pm then
          if eng.confidence_threshold ≤ confidenceScore best "h2h" then
            .ok [mkOpportunity g "h2h" pm p best none none]
          else .ok []
        else .ok []
      else .ok []

/-- `EnhancedArbitrageEngine.detect_moneyline_arbitrage`: the `except` clause
turns any raised exception into an empty list. -/
noncomputable def detectMoneylineArbitrage (eng : EnhancedArbitrageEngine) (g : GameData) :
    List ArbitrageOpportunity :=
  match detectMoneylineBody eng g with
  | .ok l => l
  | .error _ => []

/-! ## Spread and totals detection -/

/-- An item of a spread/totals group: `{"outcome": …, "bookmaker": …}` where
the bookmaker name is `bookmaker.get("title", bookmaker.get("key"))`. -/
structure GroupItem where
  outcome : Outcome
  bookmaker : Option String
  deriving DecidableEq, Repr

/-- Append `v` to the group keyed `k` of an insertion-ordered group dict,
creating the group at the end when absent. -/
def appendGroup (d : List (ℚ × List GroupItem)) (k : ℚ) (v : GroupItem) :
    List (ℚ × List GroupItem) :=
  if (d.find? (fun e => e.1 = k)).isSome then
    d.map (fun e => if e.1 = k then (e.1, e.2 ++ [v]) else e)
  else
    d ++ [(k, [v])]

/-- The (point-key, item) pairs visited by the grouping loops of
`_group_spreads_by_point_value` / `_group_totals_by_point_value`, in iteration
order.  Spreads key on `abs(outcome.get("point", 0))`, totals on
`outcome.get("point", 0)`. -/
def groupQuotes (g : GameData) (mt : String) (useAbs : Bool) : List (ℚ × GroupItem) :=
  g.bookmakers.flatMap (fun bm =>
    (bm.markets.filter (fun m => m.key = some mt)).flatMap (fun m =>
      m.outcomes.map (fun o =>
        (if useAbs then |o.point.getD 0| else o.point.getD 0,
         { outcome := o, bookmaker := bm.title <|> bm.key }))))

/-- `EnhancedArbitrageEngine._group_spreads_by_point_value`. -/
def groupSpreadsByPointValue (g : GameData) : List (ℚ × List GroupItem) :=
  (groupQuotes g "spreads" true).foldl (fun d q => appendGroup d q.1 q.2) []

/-- `EnhancedArbitrageEngine._group_totals_by_point_value`. -/
def groupTotalsByPointValue (g : GameData) : List (ℚ × List GroupItem) :=
  (groupQuotes g "totals" false).foldl (fun d q => appendGroup d q.1 q.2) []

/-- Quotes visited by `_find_best_spread_odds`: keyed on the (name, point)
pair (which the source formats into the string `f"{team_name} {point:+.1f}"`),
filtered by `price > 0` only. -/
def validSpreadQuotes (items : List GroupItem) : List (BOKey × OddsInfo) :=
  items.filterMap (fun it =>
    let price := it.outcome.price.getD 0
    let point := it.outcome.point.getD 0
    if 0 < price then
      some ((it.outcome.name, some point),
            { price := price, bookmaker := it.bookmaker, point := some point })
    else none)

/-- `EnhancedArbitrageEngine._find_best_spread_odds`. -/
def findBestSpreadOdds (items : List GroupItem) : OddsDict :=
  foldBest (validSpreadQuotes items)

/-- Quotes visited by `_find_best_totals_odds`: keyed on the outcome name
(`"Over"` / `"Under"`), filtered by `price > 0` only. -/
def validTotalsQuotes (items : List GroupItem) : List (BOKey × OddsInfo) :=
  items.filterMap (fun it =>
    let price := it.outcome.price.getD 0
    if 0 < price then
      some ((it.outcome.name, none),
            { price := price, bookmaker := it.bookmaker, point := none })
    else none)

/-- `EnhancedArbitrageEngine._find_best_totals_odds`. -/
def findBestTotalsOdds (items : List GroupItem) : OddsDict :=
  foldBest (validTotalsQuotes items)

/-- Loop body shared by the spread/totals detectors: for each point-value
group, find best odds, require ≥ 2 sides, and append an opportunity when the
arbitrage, profit-threshold and confidence gates all pass. -/
noncomputable def groupDetectLoop (eng : EnhancedArbitrageEngine) (g : GameData)
    (mt : String) (bestOf : List GroupItem → OddsDict) (isSpread : Bool) :
    List (ℚ × List GroupItem) → List ArbitrageOpportunity →
    Except PyErr (List ArbitrageOpportunity)
  | [], acc => .ok acc
  | (pv, items) :: rest, acc =>
    let best := bestOf items
    if best.length < 2 then groupDetectLoop eng g mt bestOf isSpread rest acc
    else
      match sumImpliedE best with
      | .error e => .error e
      | .ok p =>
        if p < 1 then
          let pm := (1 - p) * 100
          if eng.min_profit_threshold ≤ pm then
            if eng.confidence_threshold ≤ confidenceScore best mt then
              groupDetectLoop eng g mt bestOf isSpread rest
                (acc ++ [mkOpportunity g mt pm p best
                  (if isSpread then some pv else none)
                  (if isSpread then none else some pv)])
            else groupDetectLoop eng g mt bestOf isSpread rest acc
          else groupDetectLoop eng g mt bestOf isSpread rest acc
        else groupDetectLoop eng g mt bestOf isSpread rest acc

/-- Body of `detect_spread_arbitrage` (inside its `try`). -/
noncomputable def detectSpreadBody (eng : EnhancedArbitrageEngine) (g : GameData) :
    Except PyErr (List ArbitrageOpportunity) :=
  groupDetectLoop eng g "spreads" findBestSpreadOdds true (groupSpreadsByPointValue g) []

/-- `EnhancedArbitrageEngine.detect_spread_arbitrage`. -/
noncomputable def detectSpreadArbitrage (eng : EnhancedArbitrageEngine) (g : GameData) :
    List ArbitrageOpportunity :=
  match detectSpreadBody eng g with
  | .ok l => l
  | .error _ => []

/-- Body of `detect_totals_arbitrage` (inside its `try`). -/
noncomputable def detectTotalsBody (eng : EnhancedArbitrageEngine) (g : GameData) :
    Except PyErr (List ArbitrageOpportunity) :=
  groupDetectLoop eng g "totals" findBestTotalsOdds false (groupTotalsByPointValue g) []

/-- `EnhancedArbitrageEngine.detect_totals_arbitrage`. -/
noncomputable def detectTotalsArbitrage (eng : EnhancedArbitrageEngine) (g : GameData) :
    List ArbitrageOpportunity :=
  match detectTotalsBody eng g with
  | .ok l => l
  | .error _ => []

/-! ## Cross-market detection -/

/-- Result type of the cross-market path (`CrossMarketOpportunity`).  Only the
fields the analysed code could touch are modelled; no constructor call exists
in the source, so no value of this type is ever produced. -/
structure CrossMarketOpportunity where
  game_id : String
  market_combination : List String
  profit_margin : ℚ
  correlation_risk : ℚ
  bookmaker_distribution : List (String × ℚ)

/-- `self.market_correlations.get(market_combo, 0.5)`. -/
def marketCorrelation (combo : String × String) : ℚ :=
  if combo = ("h2h", "spreads") then 0.82
  else if combo = ("h2h", "totals") then 0.45
  else if combo = ("spreads", "totals") then 0.38
  else 0.5

/-- `EnhancedArbitrageEngine._get_available_markets`: the set of market keys
in the game data (a Python `set`; only membership is ever used). -/
def availableMarkets (g : GameData) : List (Option String) :=
  (g.bookmakers.flatMap (fun bm => bm.markets.map (fun m => m.key))).dedup

/-- `EnhancedArbitrageEngine._analyze_cross_market_combination`: every branch
returns the untouched empty `opportunities` list — the "simplified
implementation" computes correlation and best odds but never constructs an
opportunity. -/
def analyzeCrossMarketCombination (g : GameData) (combo : String × String) :
    List CrossMarketOpportunity :=
  let correlation := marketCorrelation combo
  if 0.9 < correlation then []
  else
    let m1 := findBestOdds g combo.1
    let m2 := findBestOdds g combo.2
    if m1.isEmpty ∨ m2.isEmpty then []
    else []

/-- `EnhancedArbitrageEngine.detect_cross_market_arbitrage`. -/
def detectCrossMarketArbitrage (eng : EnhancedArbitrageEngine) (g : GameData) :
    List CrossMarketOpportunity :=
  if ¬eng.enable_cross_market then []
  else
    let available := availableMarkets g
    [("h2h", "spreads"), ("h2h", "totals"), ("spreads", "totals")].foldl
      (fun acc combo =>
        if some combo.1 ∈ available ∧ some combo.2 ∈ available then
          acc ++ analyzeCrossMarketCombination g combo
        else acc) []

/-- `ParallelArbitrageProcessor._detect_game_arbitrage`: runs the three
single-market detectors and concatenates their results; the cross-market
results are computed but never appended ("would need proper conversion
logic"). -/
noncomputable def detectGameArbitrage (eng : EnhancedArbitrageEngine) (g : GameData) :
    List ArbitrageOpportunity :=
  let ml := detectMoneylineArbitrage eng g
  let sp := detectSpreadArbitrage eng g
  let tot := detectTotalsArbitrage eng g
  let _cross := detectCrossMarketArbitrage eng g
  ml ++ sp ++ tot

/-! ## Optimal stake calculation

`calculate_optimal_stakes(opportunity_data, bankroll)` consumes a dict
`outcome → {"price": …}`, modelled as an association list of (outcome, price);
its body can raise `ZeroDivisionError` (zero price, zero stake sum) and
`StopIteration` (empty dict), all absorbed by the `except` into `{}`. -/

/-- `{outcome: 1 / odds_info["price"] for …}`: raises at the first zero
price. -/
def impliedProbsE : List (String × ℚ) → Except PyErr (List (String × ℚ))
  | [] => .ok []
  | (o, pr) :: t =>
    match pyDiv 1 pr with
    | .error e => .error e
    | .ok ip =>
      match impliedProbsE t with
      | .error e => .error e
      | .ok rest => .ok ((o, ip) :: rest)

/-- The stake-distribution loop: `stakes[outcome] = optimal_investment *
(implied_prob / total_implied)`; raises when `total_implied = 0`. -/
def stakesListE (optInv total : ℚ) : List (String × ℚ) → Except PyErr (List (String × ℚ))
  | [] => .ok []
  | (o, ip) :: t =>
    match pyDiv ip total with
    | .error e => .error e
    | .ok sp =>
      match stakesListE optInv total t with
      | .error e => .error e
      | .ok rest => .ok ((o, optInv * sp) :: rest)

/-- The dict returned by `calculate_optimal_stakes` on success: the per-outcome
stakes plus the three summary keys (the source merges them into one dict via
`{**stakes, …}`). -/
structure StakesResult where
  stakes : List (String × ℚ)
  total_investment : ℚ
  guaranteed_profit : ℚ
  profit_percentage : ℚ
  deriving DecidableEq, Repr

/-- Body of `calculate_optimal_stakes` (inside its `try`). -/
def calculateOptimalStakesBody (eng : EnhancedArbitrageEngine)
    (data : List (String × ℚ)) (bankroll : ℚ) : Except PyErr StakesResult :=
  match impliedProbsE data with
  | .error e => .error e
  | .ok ips =>
    let total := (ips.map (fun x => x.2)).sum
    let maxInv := bankroll * eng.max_stake_percentage
    let optInv := maxInv * total
    match stakesListE optInv total ips with
    | .error e => .error e
    | .ok stakes =>
      let totalInvestment := (stakes.map (fun x => x.2)).sum
      match data.head? with
      | none => .error .stopIteration
      | some (o₀, p₀) =>
        match (stakes.find? (fun x => x.1 = o₀)).map (fun x => x.2) with
        | none => .error .keyError
        | some s₀ =>
          let guaranteedReturn := s₀ * p₀
          let guaranteedProfit := guaranteedReturn - totalInvestment
          match pyDiv guaranteedProfit totalInvestment with
          | .error e => .error e
          | .ok pq =>
            .ok { stakes := stakes
                  total_investment := totalInvestment
                  guaranteed_profit := guaranteedProfit
                  profit_percentage := pq * 100 }

/-- `EnhancedArbitrageEngine.calculate_optimal_stakes`: `none` models the empty
dict `{}` the `except` clause returns. -/
def calculateOptimalStakes (eng : EnhancedArbitrageEngine)
    (data : List (String × ℚ)) (bankroll : ℚ) : Option StakesResult :=
  match calculateOptimalStakesBody eng data bankroll with
  | .ok r => some r
  | .error _ => none

/-! ## Circuit breaker (`parallel_arbitrage_processor.CircuitBreaker`)

The per-service dicts `failure_counts` / `last_failure_times` (read through
`.get(name, 0)`) and the set `open_circuits` are modelled as total functions;
`time.time()` is passed in explicitly as `now`. -/

structure CircuitBreaker where
  failure_threshold : ℕ
  recovery_timeout : ℚ
  failure_counts : String → ℕ
  last_failure_times : String → ℚ
  open_circuits : String → Bool

/-- Pointwise update of a string-keyed map. -/
def updMap {α : Type} (f : String → α) (k : String) (v : α) : String → α :=
  fun n => if n = k then v else f n

/-- `CircuitBreaker.record_failure`. -/
def recordFailure (cb : CircuitBreaker) (now : ℚ) (name : String) : CircuitBreaker :=
  let counts := updMap cb.failure_counts name (cb.failure_counts name + 1)
  { cb with
    failure_counts := counts
    last_failure_times := updMap cb.last_failure_times name now
    open_circuits :=
      if cb.failure_threshold ≤ counts name then
        fun n => n == name || cb.open_circuits n
      else cb.open_circuits }

/-- `CircuitBreaker.record_success`. -/
def recordSuccess (cb : CircuitBreaker) (name : String) : CircuitBreaker :=
  { cb with
    failure_counts := updMap cb.failure_counts name 0
    open_circuits := fun n => n != name && cb.open_circuits n }

/-- `CircuitBreaker.is_open`, which also mutates `self`: when the recovery
timeout has passed it removes the service from `open_circuits` and resets its
failure count to 0 before returning `False`. -/
def isOpen (cb : CircuitBreaker) (now : ℚ) (name : String) : Bool × CircuitBreaker :=
  if cb.open_circuits name = false then (false, cb)
  else if cb.recovery_timeout < now - cb.last_failure_times name then
    (false,
     { cb with
       open_circuits := fun n => n != name && cb.open_circuits n
       failure_counts := updMap cb.failure_counts name 0 })
  else (true, cb)

/-! ## API quota manager (`parallel_arbitrage_processor.APIQuotaManager`) -/

/-- The wall-clock reading `datetime.now()` as the pair of window
identifiers the manager compares (`now.hour`, `now.date()`). -/
structure ClockTime where
  hour : ℤ
  day : ℤ
  deriving DecidableEq, Repr

/-- Failure scope of a quota-exceeded error (the source raises `Exception`
with a "Daily …"- or "Hourly …"-prefixed message). -/
inductive QuotaError where
  | daily
  | hourly
  deriving DecidableEq, Repr

structure APIQuotaManager where
  daily_limit : ℤ
  hourly_limit : ℤ
  per_request_cost : ℤ
  daily_usage : ℤ
  hourly_usage : ℤ
  current_hour : ℤ
  current_day : ℤ
  deriving DecidableEq, Repr

/-- `APIQuotaManager.consume_quota(cost)`.  `cost or self.per_request_cost`
replaces both `None` and `0` by the default cost; the window counters are
reset before the check; on a raised error the (possibly reset) state is kept
but nothing is consumed. -/
def consumeQuota (qm : APIQuotaManager) (now : ClockTime) (cost? : Option ℤ) :
    Except QuotaError Unit × APIQuotaManager :=
  let cost := match cost? with
    | none => qm.per_request_cost
    | some c => if c = 0 then qm.per_request_cost else c
  let qm₁ :=
    if now.hour ≠ qm.current_hour then
      { qm with hourly_usage := 0, current_hour := now.hour }
    else qm
  let qm₂ :=
    if now.day ≠ qm₁.current_day then
      { qm₁ with daily_usage := 0, current_day := now.day }
    else qm₁
  if qm₂.daily_limit < qm₂.daily_usage + cost then (.error .daily, qm₂)
  else if qm₂.hourly_limit < qm₂.hourly_usage + cost then (.error .hourly, qm₂)
  else (.ok (),
    { qm₂ with
      daily_usage := qm₂.daily_usage + cost
      hourly_usage := qm₂.hourly_usage + cost })

/-- Run a sequence of `consume_quota` calls, threading the manager state. -/
def consumeMany (qm : APIQuotaManager) : List (ClockTime × Option ℤ) → APIQuotaManager
  | [] => qm
  | (t, c) :: rest => consumeMany (consumeQuota qm t c).2 rest

/-! ## Concurrent fetch cycle (`fetch_multiple_sports_concurrent`)

The per-sport fetch task either completes before the cycle deadline — with a
result (`completed`) or with `None` after an absorbed per-source error /
open circuit (`failed`) — or is still pending at the deadline (`pending`).
`asyncio.wait_for(asyncio.gather(tasks), timeout)` raises `TimeoutError`
exactly when some task is still pending at the deadline; the `except` block
then leaves the `results` dict in its initial empty state. -/

inductive FetchOutcome where
  | completed (result : String)
  | failed
  | pending
  deriving DecidableEq, Repr

/-- Result dict of `fetch_multiple_sports_concurrent`, given each sport's
fetch outcome for this cycle. -/
def fetchMultipleSportsConcurrent (outcomes : List (String × FetchOutcome)) :
    List (String × String) :=
  if outcomes.any (fun p => p.2 = .pending) then []
  else
    outcomes.filterMap (fun p =>
      match p.2 with
      | .completed r => some (p.1, r)
      | _ => none)

/-! ## Cross-market risk assessment (`cross_market_analyzer.assess_cross_market_risk`) -/

/-- The fields of `CrossMarketOpportunity` read by the risk assessor. -/
structure RiskOpportunity where
  correlation_risk : ℚ
  bookmaker_distribution : List (String × ℚ)
  market_combination : List String
  deriving DecidableEq, Repr

structure RiskAssessment where
  overall_risk : ℚ
  correlation_risk : ℚ
  bookmaker_risk : ℚ
  market_risk : ℚ
  recommended_stake_percentage : ℚ
  risk_factors : List String
  deriving DecidableEq, Repr

/-- `max(book_distribution.values())` (defined for nonempty input; the source
only calls it when the distribution has ≥ 2 entries). -/
def maxExposure (dist : List (String × ℚ)) : ℚ :=
  (dist.map (fun x => x.2)).foldr (fun a b => if a ≤ b then b else a) 0

/-- `CrossMarketAnalyzer.assess_cross_market_risk`: its body cannot raise, so
the `except` fallback assessment is never exercised. -/
def assessCrossMarketRisk (opp : RiskOpportunity) : RiskAssessment :=
  let correlationRisk := opp.correlation_risk
  let factors₀ : List String :=
    if 0.8 < correlationRisk then ["High market correlation"]
    else if 0.6 < correlationRisk then ["Moderate market correlation"]
    else []
  let m := maxExposure opp.bookmaker_distribution
  let bookmakerRisk : ℚ :=
    if opp.bookmaker_distribution.length < 2 then 0.5
    else if 0.8 < m then 0.4
    else if 0.6 < m then 0.2
    else 0
  let factors₁ :=
    if opp.bookmaker_distribution.length < 2 then factors₀ ++ ["Single bookmaker exposure"]
    else if 0.8 < m then factors₀ ++ ["High bookmaker concentration"]
    else if 0.6 < m then factors₀ ++ ["Moderate bookmaker concentration"]
    else factors₀
  let marketRisk : ℚ := 0.1 * opp.market_combination.length
  let factors₂ :=
    if 2 < opp.market_combination.length then factors₁ ++ ["Multi-market complexity"]
    else factors₁
  let overallRisk := correlationRisk * 0.6 + bookmakerRisk * 0.3 + marketRisk * 0.1
  let recommendedStake : ℚ :=
    if overallRisk < 0.2 then 0.1
    else if overallRisk < 0.5 then 0.05
    else 0.02
  { overall_risk := overallRisk
    correlation_risk := correlationRisk
    bookmaker_risk := bookmakerRisk
    market_risk := marketRisk
    recommended_stake_percentage := recommendedStake
    risk_factors := factors₂ }

/-! ## Specification-side definitions

These follow the spec's words, to be compared with the definitions embedded
from the source. -/

/-- Modelled from the spec: "keeps, per outcome name, the single highest price
across all sources — ties keep the first seen."  Structural recursion over the
quote sequence in first-seen order: a later quote replaces the current choice
only when its price is strictly higher. -/
def firstMaxInfo : List OddsInfo → Option OddsInfo
  | [] => none
  | i :: t =>
    match firstMaxInfo t with
    | none => some i
    | some j => if i.price < j.price then some j else some i

/-- The infos of all quotes carrying key `k`, in iteration order. -/
def quotesFor (qs : List (BOKey × OddsInfo)) (k : BOKey) : List OddsInfo :=
  (qs.filter (fun q => q.1 = k)).map (fun q => q.2)

/-- Left fold computing the first-seen maximum starting from a current
choice; the bridge between `stepBest`'s accumulator and `firstMaxInfo`. -/
def runMax : Option OddsInfo → List OddsInfo → Option OddsInfo
  | c, [] => c
  | c, i :: t =>
    runMax (match c with
            | none => some i
            | some j => if j.price < i.price then some i else some j) t

/-! ## Concrete inputs used by counterexamples and witnesses -/

/-- A game whose two best moneyline prices (2.0 and 2.01) give
`p = 1/2 + 100/201 = 401/402 < 1` but a profit margin of `100/402 ≈ 0.249 %`,
below the default 1 % threshold. -/
def gC1 : GameData :=
  { id := some "g1", home_team := some "A", away_team := some "B"
    sport_key := some "basketball_wnba"
    bookmakers :=
      [{ title := some "B1", key := some "b1"
         markets :=
           [{ key := some "h2h"
              outcomes :=
                [{ name := some "A", price := some 2, point := none },
                 { name := some "B", price := some (201/100), point := none }] }] }] }

/-- A game carrying a single quote with price `0.5`: positive, hence kept by
`_find_best_odds`, yet not greater than `1.0`. -/
def gC6 : GameData :=
  { id := some "g6", home_team := some "A", away_team := some "B"
    sport_key := some "basketball_wnba"
    bookmakers :=
      [{ title := some "B1", key := some "b1"
         markets :=
           [{ key := some "h2h"
              outcomes := [{ name := some "A", price := some (1/2), point := none }] }] }] }

/-- Two bookmakers quoting the same outcome at the same price: the tie must
keep the first seen (`BookFirst`). -/
def gTie : GameData :=
  { id := some "gt", home_team := some "A", away_team := some "B"
    sport_key := some "basketball_wnba"
    bookmakers :=
      [{ title := some "BookFirst", key := some "bf"
         markets :=
           [{ key := some "h2h"
              outcomes := [{ name := some "A", price := some 3, point := none }] }] },
       { title := some "BookSecond", key := some "bs"
         markets :=
           [{ key := some "h2h"
              outcomes := [{ name := some "A", price := some 3, point := none }] }] }] }

/-- A game with two fair prices (2.0, 2.0): `p = 1`, so no arbitrage. -/
def gEven : GameData :=
  { id := some "ge", home_team := some "A", away_team := some "B"
    sport_key := some "basketball_wnba"
    bookmakers :=
      [{ title := some "B1", key := some "b1"
         markets :=
           [{ key := some "h2h"
              outcomes :=
                [{ name := some "A", price := some 2, point := none },
                 { name := some "B", price := some 2, point := none }] }] }] }

/-- A circuit-breaker state in which service `"s"` is open with 5 recorded
consecutive failures, the last at time 0 (default thresholds 5 / 60 s). -/
def cbEx : CircuitBreaker :=
  { failure_threshold := 5
    recovery_timeout := 60
    failure_counts := fun n => if n = "s" then 5 else 0
    last_failure_times := fun _ => 0
    open_circuits := fun n => n == "s" }

/-- A quota manager whose daily budget is exactly exhausted. -/
def qmF : APIQuotaManager :=
  { daily_limit := 10, hourly_limit := 100, per_request_cost := 1
    daily_usage := 10, hourly_usage := 0, current_hour := 0, current_day := 0 }

/-- A fresh quota manager with room in both windows. -/
def qmOk : APIQuotaManager :=
  { daily_limit := 10, hourly_limit := 5, per_request_cost := 1
    daily_usage := 0, hourly_usage := 0, current_hour := 0, current_day := 0 }

/-- A fetch cycle in which two sources completed, one failed fast, and one was
still pending when the cycle deadline expired. -/
def c8Input : List (String × FetchOutcome) :=
  [("basketball_wnba", .completed "wnba_odds"),
   ("failing_sport", .failed),
   ("timeout_sport", .pending),
   ("basketball_nba", .completed "nba_odds")]

/-- Best-odds input for the stake calculator: two outcomes at prices 2 and 3
(`p = 1/2 + 1/3 = 5/6 < 1`). -/
def stakesData : List (String × ℚ) := [("A", 2), ("B", 3)]

/-! ## Lemmas about the best-odds dictionary -/

theorem lookupOD_setOD_self (d : OddsDict) (k : BOKey) (v : OddsInfo) :
    lookupOD (setOD d k v) k = some v := by
  induction d with
  | nil => simp [setOD, lookupOD]
  | cons e t ih =>
    by_cases h : e.1 = k
    · simp [setOD, h, lookupOD]
    · simp [setOD, h, lookupOD, ih]

theorem lookupOD_setOD_ne (d : OddsDict) (k k' : BOKey) (v : OddsInfo)
    (h : k' ≠ k) : lookupOD (setOD d k v) k' = lookupOD d k' := by
  have hk : ¬(k = k') := fun hh => h hh.symm
  induction d with
  | nil => simp [setOD, lookupOD, hk]
  | cons e t ih =>
    by_cases he : e.1 = k
    · rw [setOD, if_pos he, lookupOD, if_neg hk, lookupOD, he, if_neg hk]
    · rw [setOD, if_neg he, lookupOD, lookupOD]
      by_cases he' : e.1 = k'
      · rw [if_pos he', if_pos he']
      · rw [if_neg he', if_neg he', ih]

theorem lookupOD_stepBest (acc : OddsDict) (q : BOKey × OddsInfo) (k : BOKey) :
    lookupOD (stepBest acc q) k =
      if q.1 = k then
        match lookupOD acc k with
        | none => some q.2
        | some j => if j.price < q.2.price then some q.2 else some j
      else lookupOD acc k := by
  by_cases h : q.1 = k
  · subst h
    unfold stepBest
    cases hl : lookupOD acc q.1 with
    | none => simp [hl, lookupOD_setOD_self]
    | some old =>
      by_cases hp : old.price < q.2.price
      · simp [hl, hp, lookupOD_setOD_self]
      · simp [hl, hp]
  · unfold stepBest
    cases hl : lookupOD acc q.1 with
    | none => simp [h, lookupOD_setOD_ne _ _ _ _ (fun hh => h hh.symm)]
    | some old =>
      by_cases hp : old.price < q.2.price
      · simp [h, hp, lookupOD_setOD_ne _ _ _ _ (fun hh => h hh.symm)]
      · simp [h, hp]

theorem quotesFor_cons (q : BOKey × OddsInfo) (qs : List (BOKey × OddsInfo)) (k : BOKey) :
    quotesFor (q :: qs) k =
      if q.1 = k then q.2 :: quotesFor qs k else quotesFor qs k := by
  by_cases h : q.1 = k <;> simp [quotesFor, List.filter_cons, h]

theorem lookupOD_foldl_stepBest (qs : List (BOKey × OddsInfo)) :
    ∀ (acc : OddsDict) (k : BOKey),
      lookupOD (qs.foldl stepBest acc) k = runMax (lookupOD acc k) (quotesFor qs k) := by
  induction qs with
  | nil => intro acc k; simp [quotesFor, runMax]
  | cons q qs ih =>
    intro acc k
    rw [List.foldl_cons, ih, quotesFor_cons]
    by_cases h : q.1 = k
    · rw [if_pos h, lookupOD_stepBest, if_pos h]
      cases hl : lookupOD acc k with
      | none => simp [runMax]
      | some j => by_cases hp : j.price < q.2.price <;> simp [runMax, hp]
    · rw [if_neg h, lookupOD_stepBest, if_neg h]

theorem firstMaxInfo_eq_none (l : List OddsInfo) :
    firstMaxInfo l = none ↔ l = [] := by
  cases l with
  | nil => simp [firstMaxInfo]
  | cons i t =>
    simp only [firstMaxInfo]
    cases firstMaxInfo t with
    | none => simp
    | some j => by_cases h : i.price < j.price <;> simp [h]

theorem runMax_some (l : List OddsInfo) :
    ∀ c : OddsInfo, runMax (some c) l =
      match firstMaxInfo l with
      | none => some c
      | some m => if c.price < m.price then some m else some c := by
  induction l with
  | nil => intro c; simp [runMax, firstMaxInfo]
  | cons i t ih =>
    intro c
    simp only [runMax]
    by_cases hci : c.price < i.price
    · rw [if_pos hci, ih i]
      simp only [firstMaxInfo]
      cases hf : firstMaxInfo t with
      | none => simp [hci]
      | some j =>
        by_cases hij : i.price < j.price
        · have hcj : c.price < j.price := lt_trans hci hij
          simp [hij, hcj]
        · simp [hij, hci]
    · rw [if_neg hci, ih c]
      simp only [firstMaxInfo]
      cases hf : firstMaxInfo t with
      | none => simp [hci]
      | some j =>
        by_cases hij : i.price < j.price
        · simp [hij]
        · have hcj : ¬c.price < j.price :=
            not_lt.2 (le_trans (not_lt.1 hij) (not_lt.1 hci))
          simp [hij, hci, hcj]

theorem runMax_none (l : List OddsInfo) : runMax none l = firstMaxInfo l := by
  cases l with
  | nil => rfl
  | cons i t =>
    simp only [runMax]
    rw [runMax_some]
    simp only [firstMaxInfo]

theorem firstMaxInfo_cons_of_some (a : OddsInfo) (t : List OddsInfo) (j : OddsInfo)
    (hf : firstMaxInfo t = some j) :
    firstMaxInfo (a :: t) = if a.price < j.price then some j else some a := by
  simp [firstMaxInfo, hf]

theorem firstMaxInfo_isMax (l : List OddsInfo) (i : OddsInfo)
    (h : firstMaxInfo l = some i) : i ∈ l ∧ ∀ j ∈ l, j.price ≤ i.price := by
  induction l generalizing i with
  | nil => simp [firstMaxInfo] at h
  | cons a t ih =>
    cases hf : firstMaxInfo t with
    | none =>
      have ht : t = [] := (firstMaxInfo_eq_none t).1 hf
      subst ht
      simp [firstMaxInfo] at h
      subst h
      simp
    | some j =>
      rw [firstMaxInfo_cons_of_some a t j hf] at h
      obtain ⟨hjmem, hjmax⟩ := ih j hf
      by_cases hp : a.price < j.price
      · rw [if_pos hp] at h
        cases h
        constructor
        · exact List.mem_cons_of_mem _ hjmem
        · intro x hx
          rcases List.mem_cons.1 hx with rfl | hx
          · exact le_of_lt hp
          · exact hjmax x hx
      · rw [if_neg hp] at h
        cases h
        constructor
        · exact List.mem_cons_self _ _
        · intro x hx
          rcases List.mem_cons.1 hx with rfl | hx
          · exact le_refl _
          · exact le_trans (hjmax x hx) (le_of_not_lt hp)

theorem mem_setOD (d : OddsDict) (k : BOKey) (v : OddsInfo) (e : BOKey × OddsInfo)
    (h : e ∈ setOD d k v) : e = (k, v) ∨ e ∈ d := by
  induction d with
  | nil => simpa [setOD] using h
  | cons a t ih =>
    by_cases ha : a.1 = k
    · rw [setOD, if_pos ha] at h
      rcases List.mem_cons.1 h with rfl | h
      · exact Or.inl rfl
      · exact Or.inr (List.mem_cons_of_mem _ h)
    · rw [setOD, if_neg ha] at h
      rcases List.mem_cons.1 h with rfl | h
      · exact Or.inr (List.mem_cons_self _ _)
      · rcases ih h with h | h
        · exact Or.inl h
        · exact Or.inr (List.mem_cons_of_mem _ h)

theorem mem_stepBest (d : OddsDict) (q e : BOKey × OddsInfo)
    (h : e ∈ stepBest d q) : e = q ∨ e ∈ d := by
  unfold stepBest at h
  cases hl : lookupOD d q.1 with
  | none =>
    rw [hl] at h
    rcases mem_setOD _ _ _ _ h with h | h
    · exact Or.inl h
    · exact Or.inr h
  | some old =>
    rw [hl] at h
    simp only [] at h
    by_cases hp : old.price < q.2.price
    · rw [if_pos hp] at h
      rcases mem_setOD _ _ _ _ h with h | h
      · exact Or.inl h
      · exact Or.inr h
    · rw [if_neg hp] at h
      exact Or.inr h

theorem mem_foldl_stepBest (qs : List (BOKey × OddsInfo)) :
    ∀ (acc : OddsDict) (e : BOKey × OddsInfo),
      e ∈ qs.foldl stepBest acc → e ∈ acc ∨ e ∈ qs := by
  induction qs with
  | nil => intro acc e h; exact Or.inl h
  | cons q qs ih =>
    intro acc e h
    rw [List.foldl_cons] at h
    rcases ih _ _ h with h | h
    · rcases mem_stepBest _ _ _ h with rfl | h
      · exact Or.inr (List.mem_cons_self _ _)
      · exact Or.inl h
    · exact Or.inr (List.mem_cons_of_mem _ h)

theorem mem_foldBest (qs : List (BOKey × OddsInfo)) (e : BOKey × OddsInfo)
    (h : e ∈ foldBest qs) : e ∈ qs := by
  rcases mem_foldl_stepBest qs [] e h with h | h
  · simp at h
  · exact h

theorem validQuotes_price_pos (g : GameData) (mt : String) (q : BOKey × OddsInfo)
    (h : q ∈ validQuotes g mt) : 0 < q.2.price := by
  simp only [validQuotes, List.mem_flatMap, List.mem_filterMap, List.mem_filter] at h
  obtain ⟨bm, _, m, _, o, _, ho⟩ := h
  cases hn : o.name with
  | none => rw [hn] at ho; simp at ho
  | some n =>
    rw [hn] at ho
    simp only [] at ho
    by_cases hc : n ≠ "" ∧ 0 < o.price.getD 0
    · rw [if_pos hc] at ho
      cases ho
      exact hc.2
    · rw [if_neg hc] at ho
      simp at ho

theorem validSpreadQuotes_price_pos (items : List GroupItem) (q : BOKey × OddsInfo)
    (h : q ∈ validSpreadQuotes items) : 0 < q.2.price := by
  simp only [validSpreadQuotes, List.mem_filterMap] at h
  obtain ⟨it, _, ho⟩ := h
  by_cases hc : 0 < it.outcome.price.getD 0
  · simp only [if_pos hc] at ho
    cases ho
    exact hc
  · simp only [if_neg hc] at ho
    simp at ho

theorem validTotalsQuotes_price_pos (items : List GroupItem) (q : BOKey × OddsInfo)
    (h : q ∈ validTotalsQuotes items) : 0 < q.2.price := by
  simp only [validTotalsQuotes, List.mem_filterMap] at h
  obtain ⟨it, _, ho⟩ := h
  by_cases hc : 0 < it.outcome.price.getD 0
  · simp only [if_pos hc] at ho
    cases ho
    exact hc
  · simp only [if_neg hc] at ho
    simp at ho

theorem findBestOdds_price_pos (g : GameData) (mt : String) (e : BOKey × OddsInfo)
    (h : e ∈ findBestOdds g mt) : 0 < e.2.price :=
  validQuotes_price_pos g mt e (mem_foldBest _ _ h)

theorem findBestSpreadOdds_price_pos (items : List GroupItem) (e : BOKey × OddsInfo)
    (h : e ∈ findBestSpreadOdds items) : 0 < e.2.price :=
  validSpreadQuotes_price_pos items e (mem_foldBest _ _ h)

theorem findBestTotalsOdds_price_pos (items : List GroupItem) (e : BOKey × OddsInfo)
    (h : e ∈ findBestTotalsOdds items) : 0 < e.2.price :=
  validTotalsQuotes_price_pos items e (mem_foldBest _ _ h)

theorem lookupOD_mem (d : OddsDict) (k : BOKey) (v : OddsInfo)
    (h : lookupOD d k = some v) : (k, v) ∈ d := by
  induction d with
  | nil => simp [lookupOD] at h
  | cons e t ih =>
    by_cases he : e.1 = k
    · rw [lookupOD, if_pos he] at h
      cases h
      rw [← he]
      exact List.mem_cons_self _ _
    · rw [lookupOD, if_neg he] at h
      exact List.mem_cons_of_mem _ (ih h)

/-! ## Lemmas about the implied-probability sum -/

theorem sumImpliedE_ok (l : List (BOKey × OddsInfo))
    (h : ∀ e ∈ l, e.2.price ≠ 0) : sumImpliedE l = .ok (totalImplied l) := by
  induction l with
  | nil => simp [sumImpliedE, totalImplied]
  | cons e t ih =>
    have he : e.2.price ≠ 0 := h e (List.mem_cons_self _ _)
    have ht : ∀ x ∈ t, x.2.price ≠ 0 := fun x hx => h x (List.mem_cons_of_mem _ hx)
    rw [sumImpliedE, pyDiv, if_neg he, ih ht]
    simp [totalImplied]

theorem analyzeCrossMarketCombination_eq_nil (g : GameData) (combo : String × String) :
    analyzeCrossMarketCombination g combo = [] := by
  simp [analyzeCrossMarketCombination]

/-- Claim C5: cross-market detection emits no opportunity — the per-combination
analyzer returns the empty list in every branch, so
`detect_cross_market_arbitrage` always returns `[]`, and the parallel
processor's per-game detection only concatenates the three single-market
detectors, discarding the cross-market results it computes. -/
theorem c5_cross_market_empty :
    (∀ (eng : EnhancedArbitrageEngine) (g : GameData),
       detectCrossMarketArbitrage eng g = []) ∧
    (∀ (eng : EnhancedArbitrageEngine) (g : GameData),
       detectGameArbitrage eng g =
         detectMoneylineArbitrage eng g ++ detectSpreadArbitrage eng g ++
           detectTotalsArbitrage eng g) := by
  constructor
  · intro eng g
    unfold detectCrossMarketArbitrage
    split_ifs with h <;> simp [analyzeCrossMarketCombination_eq_nil]
  · intro eng g
    rfl

/-- Claim C8: the repository's own test expects sources that completed before
the cycle deadline to keep their results, but on a cycle timeout the `except`
block of `fetch_multiple_sports_concurrent` leaves the result dict empty —
here, the cycle containing one pending source discards the completed
`basketball_wnba` and `basketball_nba` results as well. -/
theorem c8_cycle_timeout_discards_completed :
    fetchMultipleSportsConcurrent c8Input = [] ∧
    ("basketball_wnba", FetchOutcome.completed "wnba_odds") ∈ c8Input ∧
    ("basketball_nba", FetchOutcome.completed "nba_odds") ∈ c8Input ∧
    fetchMultipleSportsConcurrent
      (c8Input.filter (fun p => p.2 ≠ FetchOutcome.pending)) =
      [("basketball_wnba", "wnba_odds"), ("basketball_nba", "nba_odds")] := by
  decide

theorem assess_overall_eq (opp : RiskOpportunity) :
    (assessCrossMarketRisk opp).overall_risk =
      (assessCrossMarketRisk opp).correlation_risk * 0.6 +
        (assessCrossMarketRisk opp).bookmaker_risk * 0.3 +
        (assessCrossMarketRisk opp).market_risk * 0.1 := rfl

theorem assess_stake_eq (opp : RiskOpportunity) :
    (assessCrossMarketRisk opp).recommended_stake_percentage =
      if (assessCrossMarketRisk opp).overall_risk < 0.2 then 0.1
      else if (assessCrossMarketRisk opp).overall_risk < 0.5 then 0.05
      else 0.02 := rfl

/-- Claim C9: for a cross-market opportunity whose correlation, bookmaker and
market risks lie in `[0,1]`, the risk assessor returns
`overall_risk = 0.6·correlation + 0.3·bookmaker + 0.1·market` and a
recommended stake fraction of 10 % below overall risk 0.2, 5 % in `[0.2, 0.5)`
and 2 % from 0.5 on. -/
theorem c9_risk_assessment (opp : RiskOpportunity)
    (hc₀ : 0 ≤ opp.correlation_risk) (hc₁ : opp.correlation_risk ≤ 1)
    (hb₀ : 0 ≤ (assessCrossMarketRisk opp).bookmaker_risk)
    (hb₁ : (assessCrossMarketRisk opp).bookmaker_risk ≤ 1)
    (hm₀ : 0 ≤ (assessCrossMarketRisk opp).market_risk)
    (hm₁ : (assessCrossMarketRisk opp).market_risk ≤ 1) :
    (assessCrossMarketRisk opp).overall_risk =
      0.6 * (assessCrossMarketRisk opp).correlation_risk +
        0.3 * (assessCrossMarketRisk opp).bookmaker_risk +
        0.1 * (assessCrossMarketRisk opp).market_risk ∧
    ((assessCrossMarketRisk opp).overall_risk < 0.2 →
      (assessCrossMarketRisk opp).recommended_stake_percentage = 0.1) ∧
    (0.2 ≤ (assessCrossMarketRisk opp).overall_risk →
      (assessCrossMarketRisk opp).overall_risk < 0.5 →
      (assessCrossMarketRisk opp).recommended_stake_percentage = 0.05) ∧
    (0.5 ≤ (assessCrossMarketRisk opp).overall_risk →
      (assessCrossMarketRisk opp).recommended_stake_percentage = 0.02) := by
  refine ⟨?_, ?_, ?_, ?_⟩
  · rw [assess_overall_eq]; ring
  · intro h
    rw [assess_stake_eq, if_pos h]
  · intro h₁ h₂
    rw [assess_stake_eq, if_neg (not_lt.2 h₁), if_pos h₂]
  · intro h
    rw [assess_stake_eq, if_neg (not_lt.2 (le_trans (by norm_num) h)),
      if_neg (not_lt.2 h)]

/-- Witness for C9 at a concrete opportunity: correlation risk 0.3, two evenly
used bookmakers (bookmaker risk 0), two legs (market risk 0.2), overall risk
`0.3·0.6 + 0.2·0.1 = 0.2`, hence the 5 % tier. -/
theorem c9_witness :
    (assessCrossMarketRisk
        { correlation_risk := 0.3
          bookmaker_distribution := [("a", 0.5), ("b", 0.5)]
          market_combination := ["h2h", "spreads"] }).recommended_stake_percentage =
      0.05 :=
  (c9_risk_assessment _ (by norm_num) (by norm_num)
    (by norm_num [assessCrossMarketRisk, maxExposure])
    (by norm_num [assessCrossMarketRisk, maxExposure])
    (by norm_num [assessCrossMarketRisk, maxExposure])
    (by norm_num [assessCrossMarketRisk, maxExposure])).2.2.1
    (by norm_num [assessCrossMarketRisk, maxExposure])
    (by norm_num [assessCrossMarketRisk, maxExposure])

/-- Claim C3 (amended): once more than `recovery_timeout` has elapsed since
the last failure of an open circuit, `is_open` returns `False` and itself
closes the circuit, resetting the consecutive-failure count to 0 — so every
subsequent request is allowed (not just one trial), the state of other
services is untouched, and no subsequent `record_success`/`record_failure`
call is needed to re-close the circuit. -/
theorem c3_is_open_recovery (cb : CircuitBreaker) (now : ℚ) (name : String)
    (hopen : cb.open_circuits name = true)
    (helapsed : cb.recovery_timeout < now - cb.last_failure_times name) :
    (isOpen cb now name).1 = false ∧
    (isOpen cb now name).2.failure_counts name = 0 ∧
    (isOpen cb now name).2.open_circuits name = false ∧
    (isOpen (isOpen cb now name).2 now name).1 = false ∧
    (∀ m, m ≠ name →
      (isOpen cb now name).2.failure_counts m = cb.failure_counts m ∧
      (isOpen cb now name).2.open_circuits m = cb.open_circuits m) ∧
    (isOpen cb now name).2.last_failure_times = cb.last_failure_times := by
  have h1 : ¬(cb.open_circuits name = false) := by simp [hopen]
  have hstep : isOpen cb now name =
      (false,
       { cb with
         open_circuits := fun n => n != name && cb.open_circuits n
         failure_counts := updMap cb.failure_counts name 0 }) := by
    rw [isOpen, if_neg h1, if_pos helapsed]
  refine ⟨by rw [hstep], ?_, ?_, ?_, ?_, by rw [hstep]⟩
  · rw [hstep]; simp [updMap]
  · rw [hstep]; simp
  · rw [hstep, isOpen]
    simp
  · intro m hm
    rw [hstep]
    constructor
    · simp [updMap, hm]
    · simp [hm]

/-- Witness for C3 (amended) at the concrete open-circuit state `cbEx`
(5 failures, last at time 0) queried at time 61 > 60. -/
theorem c3_witness :
    (isOpen cbEx 61 "s").1 = false ∧
    (isOpen cbEx 61 "s").2.failure_counts "s" = 0 ∧
    (isOpen cbEx 61 "s").2.open_circuits "s" = false ∧
    (isOpen (isOpen cbEx 61 "s").2 61 "s").1 = false ∧
    (∀ m, m ≠ "s" →
      (isOpen cbEx 61 "s").2.failure_counts m = cbEx.failure_counts m ∧
      (isOpen cbEx 61 "s").2.open_circuits m = cbEx.open_circuits m) ∧
    (isOpen cbEx 61 "s").2.last_failure_times = cbEx.last_failure_times :=
  c3_is_open_recovery cbEx 61 "s" (by decide) (by norm_num [cbEx])

/-- Counterexample to C3 as stated: the `is_open` call itself resets the
consecutive-failure count (from 5 to 0) and closes the circuit, so a second
`is_open` call also returns `False` before any `record_success` /
`record_failure` runs — the claim said the count is left unchanged and only
the subsequent record call decides the next state. -/
theorem c3_counterexample :
    cbEx.failure_counts "s" = 5 ∧
    cbEx.recovery_timeout < 61 - cbEx.last_failure_times "s" ∧
    (isOpen cbEx 61 "s").1 = false ∧
    (isOpen cbEx 61 "s").2.failure_counts "s" ≠ cbEx.failure_counts "s" ∧
    (isOpen (isOpen cbEx 61 "s").2 61 "s").1 = false := by
  with_unfolding_all decide

/-- Claim C6 (amended): every price propagated into a best-odds selection is
positive (`price > 0`) — the ingestion filters drop quotes whose price is
missing (defaulted to 0) or non-positive — for the moneyline, spread and
totals selections alike.  (The spec's stricter bound `price > 1.0` is not
enforced; see the counterexample.) -/
theorem c6_best_odds_price_positive :
    (∀ (g : GameData) (mt : String) (e : BOKey × OddsInfo),
       e ∈ findBestOdds g mt → 0 < e.2.price) ∧
    (∀ (items : List GroupItem) (e : BOKey × OddsInfo),
       e ∈ findBestSpreadOdds items → 0 < e.2.price) ∧
    (∀ (items : List GroupItem) (e : BOKey × OddsInfo),
       e ∈ findBestTotalsOdds items → 0 < e.2.price) :=
  ⟨findBestOdds_price_pos, findBestSpreadOdds_price_pos, findBestTotalsOdds_price_pos⟩

/-- Witness for C6 (amended): the quote of `gC6` (price 0.5 > 0) is kept, and
its stored price is positive. -/
theorem c6_witness :
    0 < (OddsInfo.mk (1/2) (some "B1") none).price :=
  c6_best_odds_price_positive.1 gC6 "h2h"
    ((some "A", none), OddsInfo.mk (1/2) (some "B1") none)
    (by with_unfolding_all decide)

/-- Counterexample to C6 as stated: a quote with price `0.5` is not greater
than `1.0`, yet `_find_best_odds` keeps it (the code only filters
`price > 0`), so it is propagated into the best-odds selection. -/
theorem c6_counterexample :
    lookupOD (findBestOdds gC6 "h2h") (some "A", none) =
      some (OddsInfo.mk (1/2) (some "B1") none) ∧
    ¬(1 < (OddsInfo.mk (1/2) (some "B1") none).price) := by
  with_unfolding_all decide

/-- Claim C7: for every game and market type, the best-odds selection maps
each outcome key to the first-seen quote of maximal price among all quotes for
that key, in bookmaker/market/outcome iteration order (`firstMaxInfo` keeps an
earlier quote on price ties); consequently the selected entry is a quote for
that key whose price is maximal.  The concrete `gTie` check shows a tie
keeping the first-seen bookmaker. -/
theorem c7_best_odds_first_max :
    (∀ (g : GameData) (mt : String) (k : BOKey),
       lookupOD (findBestOdds g mt) k = firstMaxInfo (quotesFor (validQuotes g mt) k)) ∧
    (∀ (g : GameData) (mt : String) (k : BOKey) (i : OddsInfo),
       lookupOD (findBestOdds g mt) k = some i →
         i ∈ quotesFor (validQuotes g mt) k ∧
         ∀ j ∈ quotesFor (validQuotes g mt) k, j.price ≤ i.price) ∧
    lookupOD (findBestOdds gTie "h2h") (some "A", none) =
      some (OddsInfo.mk 3 (some "BookFirst") none) := by
  have hmain : ∀ (g : GameData) (mt : String) (k : BOKey),
      lookupOD (findBestOdds g mt) k = firstMaxInfo (quotesFor (validQuotes g mt) k) := by
    intro g mt k
    rw [findBestOdds, foldBest, lookupOD_foldl_stepBest]
    rw [show lookupOD [] k = none from rfl, runMax_none]
  refine ⟨hmain, ?_, by with_unfolding_all decide⟩
  intro g mt k i hi
  rw [hmain] at hi
  exact firstMaxInfo_isMax _ i hi

/-- Witness for C7's maximality conjunct at the concrete tied game: the
selected quote is one of the two tied quotes and no quote for the outcome has
a higher price. -/
theorem c7_witness :
    OddsInfo.mk 3 (some "BookFirst") none ∈
      quotesFor (validQuotes gTie "h2h") (some "A", none) ∧
    ∀ j ∈ quotesFor (validQuotes gTie "h2h") (some "A", none),
      j.price ≤ (OddsInfo.mk 3 (some "BookFirst") none).price :=
  c7_best_odds_first_max.2.1 gTie "h2h" (some "A", none)
    (OddsInfo.mk 3 (some "BookFirst") none) (by with_unfolding_all decide)

theorem detectMoneyline_eq (eng : EnhancedArbitrageEngine) (g : GameData)
    (h2 : ¬((findBestOdds g "h2h").length < 2)) :
    detectMoneylineArbitrage eng g =
      if totalImplied (findBestOdds g "h2h") < 1 then
        if eng.min_profit_threshold ≤ (1 - totalImplied (findBestOdds g "h2h")) * 100 then
          if eng.confidence_threshold ≤ confidenceScore (findBestOdds g "h2h") "h2h" then
            [mkOpportunity g "h2h" ((1 - totalImplied (findBestOdds g "h2h")) * 100)
              (totalImplied (findBestOdds g "h2h")) (findBestOdds g "h2h") none none]
          else []
        else []
      else [] := by
  have hok : sumImpliedE (findBestOdds g "h2h") = .ok (totalImplied (findBestOdds g "h2h")) :=
    sumImpliedE_ok _ (fun e he => ne_of_gt (findBestOdds_price_pos g "h2h" e he))
  simp only [detectMoneylineArbitrage, detectMoneylineBody]
  rw [if_neg h2, hok]
  simp only []
  split_ifs <;> rfl

/-- Claim C1 (amended): with at least two distinct-outcome best odds, the
moneyline detector emits an opportunity exactly when `p = Σ 1/price < 1`
**and** the profit margin `(1-p)·100` reaches `min_profit_threshold` **and**
the confidence score reaches `confidence_threshold`; any emitted opportunity
carries `profit_margin = (1-p)·100` and `total_implied_probability = p`; when
`p ≥ 1` no opportunity is emitted. -/
theorem c1_moneyline_detection (eng : EnhancedArbitrageEngine) (g : GameData)
    (h : 2 ≤ (findBestOdds g "h2h").length) :
    (detectMoneylineArbitrage eng g ≠ [] ↔
      (totalImplied (findBestOdds g "h2h") < 1 ∧
       eng.min_profit_threshold ≤ (1 - totalImplied (findBestOdds g "h2h")) * 100 ∧
       eng.confidence_threshold ≤ confidenceScore (findBestOdds g "h2h") "h2h")) ∧
    (∀ o ∈ detectMoneylineArbitrage eng g,
       o.profit_margin = (1 - totalImplied (findBestOdds g "h2h")) * 100 ∧
       o.total_implied_probability = totalImplied (findBestOdds g "h2h") ∧
       o.best_odds = findBestOdds g "h2h") ∧
    (1 ≤ totalImplied (findBestOdds g "h2h") → detectMoneylineArbitrage eng g = []) := by
  rw [detectMoneyline_eq eng g (not_lt.2 h)]
  refine ⟨?_, ?_, ?_⟩
  · split_ifs with hA hB hC <;> simp [*]
  · intro o ho
    split_ifs at ho
    · rw [List.mem_singleton] at ho
      subst ho
      exact ⟨rfl, rfl, rfl⟩
    all_goals simp at ho
  · intro h1
    rw [if_neg (not_lt.2 h1)]

/-- Witness for C1 (amended) at the concrete game `gEven` (`p = 1`): the
best-odds selection has two outcomes and no opportunity is emitted. -/
theorem c1_witness :
    2 ≤ (findBestOdds gEven "h2h").length ∧
    detectMoneylineArbitrage defaultEngine gEven = [] :=
  ⟨by with_unfolding_all decide,
   (c1_moneyline_detection defaultEngine gEven (by with_unfolding_all decide)).2.2
     (by with_unfolding_all decide)⟩

/-- Counterexample to C1 as stated: `gC1` has two best prices (2.0, 2.01), so
`p = 401/402 < 1`, yet no opportunity is emitted — the profit margin
`100/402 ≈ 0.249 %` is below the default 1 % `min_profit_threshold`, refuting
"emits exactly when `p < 1`". -/
theorem c1_counterexample :
    2 ≤ (findBestOdds gC1 "h2h").length ∧
    totalImplied (findBestOdds gC1 "h2h") < 1 ∧
    detectMoneylineArbitrage defaultEngine gC1 = [] := by
  refine ⟨by with_unfolding_all decide, by with_unfolding_all decide, ?_⟩
  rw [detectMoneyline_eq defaultEngine gC1 (by with_unfolding_all decide),
    if_pos (by with_unfolding_all decide :
      totalImplied (findBestOdds gC1 "h2h") < 1),
    if_neg (by with_unfolding_all decide :
      ¬(defaultEngine.min_profit_threshold ≤
          (1 - totalImplied (findBestOdds gC1 "h2h")) * 100))]

theorem consumeQuota_same_window (qm : APIQuotaManager) (now : ClockTime) (c : ℤ)
    (hh : now.hour = qm.current_hour) (hd : now.day = qm.current_day) (hc : c ≠ 0) :
    consumeQuota qm now (some c) =
      if qm.daily_limit < qm.daily_usage + c then (.error .daily, qm)
      else if qm.hourly_limit < qm.hourly_usage + c then (.error .hourly, qm)
      else (.ok (),
        { qm with
          daily_usage := qm.daily_usage + c
          hourly_usage := qm.hourly_usage + c }) := by
  simp only [consumeQuota, if_neg hc]
  rw [if_neg (show ¬now.hour ≠ qm.current_hour by simp [hh])]
  rw [if_neg (show ¬now.day ≠ qm.current_day by simp [hd])]

theorem consumeQuota_preserves (qm : APIQuotaManager) (now : ClockTime)
    (cost? : Option ℤ)
    (hh : now.hour = qm.current_hour) (hd : now.day = qm.current_day)
    (h1 : qm.daily_usage ≤ qm.daily_limit) (h2 : qm.hourly_usage ≤ qm.hourly_limit) :
    (consumeQuota qm now cost?).2.current_hour = qm.current_hour ∧
    (consumeQuota qm now cost?).2.current_day = qm.current_day ∧
    (consumeQuota qm now cost?).2.daily_limit = qm.daily_limit ∧
    (consumeQuota qm now cost?).2.hourly_limit = qm.hourly_limit ∧
    (consumeQuota qm now cost?).2.daily_usage ≤ qm.daily_limit ∧
    (consumeQuota qm now cost?).2.hourly_usage ≤ qm.hourly_limit := by
  simp only [consumeQuota]
  rw [if_neg (show ¬now.hour ≠ qm.current_hour by simp [hh])]
  rw [if_neg (show ¬now.day ≠ qm.current_day by simp [hd])]
  split_ifs with hda hho
  · exact ⟨rfl, rfl, rfl, rfl, h1, h2⟩
  · exact ⟨rfl, rfl, rfl, rfl, h1, h2⟩
  · exact ⟨rfl, rfl, rfl, rfl, le_of_not_lt hda, le_of_not_lt hho⟩

/-- Claim C4 (amended): for a nonzero cost within the current daily/hourly
window, `consume_quota` fails with the daily scope exactly when
`daily_used + cost` would exceed the daily limit, with the hourly scope
exactly when the daily check passes but `hourly_used + cost` would exceed the
hourly limit; a failing call leaves the state unchanged and a succeeding call
increments both counters by the cost; consequently a same-window sequence of
calls never pushes either counter past its limit.  (A cost of `0` — like
`None` — is replaced by `per_request_cost`; see the counterexample.) -/
theorem c4_quota_consume :
    (∀ (qm : APIQuotaManager) (now : ClockTime) (c : ℤ),
       now.hour = qm.current_hour → now.day = qm.current_day → c ≠ 0 →
       (((consumeQuota qm now (some c)).1 = .error .daily ↔
           qm.daily_limit < qm.daily_usage + c) ∧
        ((consumeQuota qm now (some c)).1 = .error .hourly ↔
           (qm.daily_usage + c ≤ qm.daily_limit ∧
            qm.hourly_limit < qm.hourly_usage + c)) ∧
        (∀ e, (consumeQuota qm now (some c)).1 = .error e →
           (consumeQuota qm now (some c)).2 = qm) ∧
        ((consumeQuota qm now (some c)).1 = .ok () →
           (consumeQuota qm now (some c)).2.daily_usage = qm.daily_usage + c ∧
           (consumeQuota qm now (some c)).2.hourly_usage = qm.hourly_usage + c))) ∧
    (∀ (qm : APIQuotaManager) (ops : List (ClockTime × Option ℤ)),
       (∀ p ∈ ops, p.1.hour = qm.current_hour ∧ p.1.day = qm.current_day) →
       qm.daily_usage ≤ qm.daily_limit → qm.hourly_usage ≤ qm.hourly_limit →
       (consumeMany qm ops).daily_usage ≤ qm.daily_limit ∧
       (consumeMany qm ops).hourly_usage ≤ qm.hourly_limit) := by
  constructor
  · intro qm now c hh hd hc
    rw [consumeQuota_same_window qm now c hh hd hc]
    split_ifs with hda hho
    · refine ⟨by simp [hda], ?_, fun e _ => rfl, by simp⟩
      simp only [Prod.fst]
      constructor
      · intro h
        exact absurd h (by simp)
      · intro h
        exact absurd hda (not_lt.2 h.1)
    · refine ⟨by simp [hda], ?_, fun e _ => rfl, by simp⟩
      simp [not_lt.1 hda, hho]
    · refine ⟨?_, ?_, ?_, fun _ => ⟨rfl, rfl⟩⟩
      · simp [hda]
      · simp [not_lt.1 hda, hho]
      · intro e he
        simp at he
  · intro qm ops
    induction ops generalizing qm with
    | nil => intro _ h1 h2; exact ⟨h1, h2⟩
    | cons p rest ih =>
      intro hw h1 h2
      obtain ⟨hph, hpd⟩ := hw p (List.mem_cons_self _ _)
      have hp := consumeQuota_preserves qm p.1 p.2 hph hpd h1 h2
      obtain ⟨e1, e2, e3, e4, e5, e6⟩ := hp
      have hrest : ∀ q ∈ rest,
          q.1.hour = (consumeQuota qm p.1 p.2).2.current_hour ∧
          q.1.day = (consumeQuota qm p.1 p.2).2.current_day := by
        intro q hq
        rw [e1, e2]
        exact hw q (List.mem_cons_of_mem _ hq)
      have := ih (consumeQuota qm p.1 p.2).2 hrest (by rw [e3]; exact e5)
        (by rw [e4]; exact e6)
      rw [e3, e4] at this
      exact ⟨(show consumeMany qm (p :: rest) =
          consumeMany (consumeQuota qm p.1 p.2).2 rest from rfl) ▸ this.1,
        (show consumeMany qm (p :: rest) =
          consumeMany (consumeQuota qm p.1 p.2).2 rest from rfl) ▸ this.2⟩

/-- Witness for C4 (amended) at the fresh manager `qmOk` (limits 10/5): a
single-call consume of cost 1 succeeds and increments both counters, and a
three-call same-window sequence keeps both counters within their limits. -/
theorem c4_witness :
    ((consumeQuota qmOk ⟨0, 0⟩ (some 1)).1 = .ok () →
      (consumeQuota qmOk ⟨0, 0⟩ (some 1)).2.daily_usage = qmOk.daily_usage + 1 ∧
      (consumeQuota qmOk ⟨0, 0⟩ (some 1)).2.hourly_usage = qmOk.hourly_usage + 1) ∧
    ((consumeMany qmOk [(⟨0, 0⟩, some 3), (⟨0, 0⟩, some 3), (⟨0, 0⟩, none)]).daily_usage ≤
       qmOk.daily_limit ∧
     (consumeMany qmOk [(⟨0, 0⟩, some 3), (⟨0, 0⟩, some 3), (⟨0, 0⟩, none)]).hourly_usage ≤
       qmOk.hourly_limit) :=
  ⟨(c4_quota_consume.1 qmOk ⟨0, 0⟩ 1 rfl rfl (by decide)).2.2.2,
   c4_quota_consume.2 qmOk [(⟨0, 0⟩, some 3), (⟨0, 0⟩, some 3), (⟨0, 0⟩, none)]
     (by decide) (by decide) (by decide)⟩

/-- Counterexample to C4 as stated: a call with cost `0` on an exactly
exhausted daily budget would, per the claim, succeed
(`used + 0 = limit` exceeds nothing) — but `cost or self.per_request_cost`
replaces `0` by the default cost 1, so the call fails with the daily scope. -/
theorem c4_counterexample :
    qmF.daily_usage + 0 ≤ qmF.daily_limit ∧
    qmF.hourly_usage + 0 ≤ qmF.hourly_limit ∧
    (consumeQuota qmF ⟨0, 0⟩ (some 0)).1 = .error .daily :=
  ⟨by decide, by decide, by with_unfolding_all rfl⟩

/-! ## Lemmas about the stake calculator -/

theorem impliedProbsE_ok (data : List (String × ℚ)) (h : ∀ x ∈ data, x.2 ≠ 0) :
    impliedProbsE data = .ok (data.map (fun x => (x.1, 1 / x.2))) := by
  induction data with
  | nil => rfl
  | cons x t ih =>
    obtain ⟨o, pr⟩ := x
    have hx : pr ≠ 0 := h (o, pr) (List.mem_cons_self _ _)
    rw [impliedProbsE, pyDiv, if_neg hx, ih (fun y hy => h y (List.mem_cons_of_mem _ hy))]
    simp

theorem impliedProbsE_zero (data : List (String × ℚ)) (h : ∃ x ∈ data, x.2 = 0) :
    impliedProbsE data = .error .zeroDivision := by
  induction data with
  | nil => simp at h
  | cons x t ih =>
    obtain ⟨o, pr⟩ := x
    by_cases hx : pr = 0
    · rw [impliedProbsE, pyDiv, if_pos hx]
    · rw [impliedProbsE, pyDiv, if_neg hx]
      have ht : ∃ y ∈ t, y.2 = 0 := by
        rcases h with ⟨y, hy, hy0⟩
        rcases List.mem_cons.1 hy with rfl | hy
        · exact absurd hy0 hx
        · exact ⟨y, hy, hy0⟩
      rw [ih ht]

theorem stakesListE_ok (optInv total : ℚ) (ips : List (String × ℚ)) (h : total ≠ 0) :
    stakesListE optInv total ips =
      .ok (ips.map (fun y => (y.1, optInv * (y.2 / total)))) := by
  induction ips with
  | nil => rfl
  | cons y t ih =>
    obtain ⟨o, ip⟩ := y
    rw [stakesListE, pyDiv, if_neg h, ih]
    simp

theorem sum_map_mul_left (l : List (String × ℚ)) (c : ℚ) (f : String × ℚ → ℚ) :
    (l.map (fun x => c * f x)).sum = c * (l.map f).sum := by
  induction l with
  | nil => simp
  | cons x t ih => simp [ih, mul_add]

theorem calcBody_ok (eng : EnhancedArbitrageEngine) (d : String × ℚ)
    (rest : List (String × ℚ)) (B : ℚ)
    (hpos : ∀ x ∈ d :: rest, 0 < x.2)
    (hBm : 0 < B * eng.max_stake_percentage) :
    ∃ r, calculateOptimalStakesBody eng (d :: rest) B = .ok r ∧
      r.stakes = (d :: rest).map
        (fun x => (x.1, B * eng.max_stake_percentage * (1 / x.2))) := by
  obtain ⟨dn, dp⟩ := d
  set data := (dn, dp) :: rest with hdata
  have hne0 : ∀ x ∈ data, x.2 ≠ 0 := fun x hx => ne_of_gt (hpos x hx)
  have htpos : 0 < (data.map (fun x => 1 / x.2)).sum := by
    apply List.sum_pos
    · intro q hq
      rcases List.mem_map.1 hq with ⟨x, hx, rfl⟩
      exact one_div_pos.2 (hpos x hx)
    · simp [hdata]
  set T := (data.map (fun x => 1 / x.2)).sum with hT
  have hT0 : T ≠ 0 := ne_of_gt htpos
  unfold calculateOptimalStakesBody
  rw [impliedProbsE_ok data hne0]
  simp only []
  have htt : ((data.map (fun x => (x.1, 1 / x.2))).map (fun x => x.2)).sum = T := by
    rw [List.map_map]; rfl
  rw [htt, stakesListE_ok (B * eng.max_stake_percentage * T) T _ hT0]
  simp only []
  have hstval : ∀ q : ℚ,
      B * eng.max_stake_percentage * T * (q / T) = B * eng.max_stake_percentage * q := by
    intro q
    field_simp
    ring
  have hstakes : ((data.map (fun x => (x.1, 1 / x.2))).map
        (fun y => (y.1, B * eng.max_stake_percentage * T * (y.2 / T)))) =
      data.map (fun x => (x.1, B * eng.max_stake_percentage * (1 / x.2))) := by
    rw [List.map_map]
    apply List.map_congr_left
    intro x _
    simp only [Function.comp]
    rw [hstval]
  rw [hstakes]
  have htinv : ((data.map
        (fun x => (x.1, B * eng.max_stake_percentage * (1 / x.2)))).map
          (fun x => x.2)).sum = B * eng.max_stake_percentage * T := by
    rw [List.map_map]
    show (data.map (fun x => B * eng.max_stake_percentage * (1 / x.2))).sum =
      B * eng.max_stake_percentage * T
    rw [sum_map_mul_left, hT]
  rw [htinv]
  have hI0 : 0 < B * eng.max_stake_percentage * T := mul_pos hBm htpos
  rw [hdata]
  simp only [List.head?_cons, List.map_cons]
  rw [List.find?_cons_of_pos _ (by simp)]
  simp only [Option.map_some']
  rw [pyDiv, if_neg (ne_of_gt hI0)]
  exact ⟨_, rfl, rfl⟩

/-- Claim C2 (amended): for a nonempty best-odds selection with positive
prices and a strictly positive bankroll (and positive stake fraction),
`calculate_optimal_stakes` returns one stake per outcome with
`stake_i · price_i = B · max_stake_percentage` for every outcome — a flat
guaranteed payout — and, whenever `Σ 1/price_i ≤ 1`, the total stake is at
most `B · max_stake_percentage`.  (At `B = 0` the source divides `0.0/0.0`
computing `profit_percentage` and returns `{}`; see the counterexample.) -/
theorem c2_optimal_stakes (eng : EnhancedArbitrageEngine)
    (data : List (String × ℚ)) (B : ℚ)
    (hne : data ≠ []) (hpos : ∀ x ∈ data, 0 < x.2) (hB : 0 < B)
    (hmsp : 0 < eng.max_stake_percentage) :
    ∃ r, calculateOptimalStakes eng data B = some r ∧
      List.Forall₂ (fun (x y : String × ℚ) =>
        y.1 = x.1 ∧ y.2 * x.2 = B * eng.max_stake_percentage) data r.stakes ∧
      ((data.map (fun x => 1 / x.2)).sum ≤ 1 →
        (r.stakes.map (fun y => y.2)).sum ≤ B * eng.max_stake_percentage) := by
  obtain ⟨d, rest, rfl⟩ := List.exists_cons_of_ne_nil hne
  have hBm : 0 < B * eng.max_stake_percentage := mul_pos hB hmsp
  obtain ⟨r, hr, hst⟩ := calcBody_ok eng d rest B hpos hBm
  refine ⟨r, ?_, ?_, ?_⟩
  · unfold calculateOptimalStakes
    rw [hr]
  · rw [hst, List.forall₂_map_right_iff]
    rw [List.forall₂_same]
    intro x hx
    refine ⟨rfl, ?_⟩
    have hx0 : x.2 ≠ 0 := ne_of_gt (hpos x hx)
    field_simp
  · intro hle
    rw [hst, List.map_map]
    show ((d :: rest).map
        (fun x => B * eng.max_stake_percentage * (1 / x.2))).sum ≤
      B * eng.max_stake_percentage
    rw [sum_map_mul_left]
    have := mul_le_mul_of_nonneg_left hle (le_of_lt hBm)
    simpa using this

/-- Witness for C2 (amended) at prices 2 and 3 with bankroll 100. -/
theorem c2_witness :
    ∃ r, calculateOptimalStakes defaultEngine [("A", 2), ("B", 3)] 100 = some r ∧
      List.Forall₂ (fun (x y : String × ℚ) =>
        y.1 = x.1 ∧ y.2 * x.2 = 100 * defaultEngine.max_stake_percentage)
        [("A", 2), ("B", 3)] r.stakes ∧
      ((([("A", (2:ℚ)), ("B", 3)] : List (String × ℚ)).map
          (fun x => 1 / x.2)).sum ≤ 1 →
        (r.stakes.map (fun y => y.2)).sum ≤ 100 * defaultEngine.max_stake_percentage) :=
  c2_optimal_stakes defaultEngine [("A", 2), ("B", 3)] 100 (by simp)
    (by with_unfolding_all decide) (by norm_num)
    (by with_unfolding_all decide)

/-- Counterexample to C2 as stated: at bankroll `B = 0` (allowed by the
claim's `B ≥ 0`) every stake is `0.0`, so `profit_percentage = 0.0 / 0.0`
raises `ZeroDivisionError` and the method returns the empty dict — no
per-outcome stakes are returned at all. -/
theorem c2_counterexample :
    (∀ x ∈ ([("A", (2:ℚ)), ("B", 2)] : List (String × ℚ)), 0 < x.2) ∧
    ((0:ℚ) ≤ 0) ∧
    calculateOptimalStakes defaultEngine [("A", 2), ("B", 2)] 0 = none := by
  refine ⟨by with_unfolding_all decide, le_refl 0, by with_unfolding_all rfl⟩

theorem detectMoneylineBody_ok (eng : EnhancedArbitrageEngine) (g : GameData) :
    ∃ l, detectMoneylineBody eng g = .ok l ∧ detectMoneylineArbitrage eng g = l := by
  have hok : sumImpliedE (findBestOdds g "h2h") =
      .ok (totalImplied (findBestOdds g "h2h")) :=
    sumImpliedE_ok _ (fun e he => ne_of_gt (findBestOdds_price_pos g "h2h" e he))
  have hbody : ∃ l, detectMoneylineBody eng g = .ok l := by
    simp only [detectMoneylineBody]
    rw [hok]
    simp only []
    split_ifs <;> exact ⟨_, rfl⟩
  obtain ⟨l, hl⟩ := hbody
  exact ⟨l, hl, by unfold detectMoneylineArbitrage; rw [hl]⟩

theorem groupDetectLoop_ok (eng : EnhancedArbitrageEngine) (g : GameData)
    (mt : String) (bestOf : List GroupItem → OddsDict) (isSpread : Bool)
    (hpos : ∀ (items : List GroupItem) (e : BOKey × OddsInfo),
      e ∈ bestOf items → 0 < e.2.price) :
    ∀ (groups : List (ℚ × List GroupItem)) (acc : List ArbitrageOpportunity),
      ∃ l, groupDetectLoop eng g mt bestOf isSpread groups acc = .ok l := by
  intro groups
  induction groups with
  | nil => intro acc; exact ⟨acc, rfl⟩
  | cons grp rest ih =>
    intro acc
    obtain ⟨pv, items⟩ := grp
    have hok : sumImpliedE (bestOf items) = .ok (totalImplied (bestOf items)) :=
      sumImpliedE_ok _ (fun e he => ne_of_gt (hpos items e he))
    simp only [groupDetectLoop]
    rw [hok]
    simp only []
    split_ifs <;> exact ih _

/-- Claim C10: the three public detectors absorb every internal error — their
`try` bodies in fact never raise (all divisions are guarded by the positive-
price filters), so each returns exactly its body's list — and
`calculate_optimal_stakes` returns the empty dict whenever some outcome's
price is zero, since `1/price` then raises `ZeroDivisionError`, which the
`except` clause absorbs. -/
theorem c10_error_absorption :
    (∀ (eng : EnhancedArbitrageEngine) (g : GameData),
       ∃ l, detectMoneylineBody eng g = .ok l ∧ detectMoneylineArbitrage eng g = l) ∧
    (∀ (eng : EnhancedArbitrageEngine) (g : GameData),
       ∃ l, detectSpreadBody eng g = .ok l ∧ detectSpreadArbitrage eng g = l) ∧
    (∀ (eng : EnhancedArbitrageEngine) (g : GameData),
       ∃ l, detectTotalsBody eng g = .ok l ∧ detectTotalsArbitrage eng g = l) ∧
    (∀ (eng : EnhancedArbitrageEngine) (data : List (String × ℚ)) (B : ℚ),
       (∃ x ∈ data, x.2 = 0) → calculateOptimalStakes eng data B = none) := by
  refine ⟨detectMoneylineBody_ok, ?_, ?_, ?_⟩
  · intro eng g
    obtain ⟨l, hl⟩ := groupDetectLoop_ok eng g "spreads" findBestSpreadOdds true
      findBestSpreadOdds_price_pos (groupSpreadsByPointValue g) []
    exact ⟨l, hl, by unfold detectSpreadArbitrage detectSpreadBody; rw [hl]⟩
  · intro eng g
    obtain ⟨l, hl⟩ := groupDetectLoop_ok eng g "totals" findBestTotalsOdds false
      findBestTotalsOdds_price_pos (groupTotalsByPointValue g) []
    exact ⟨l, hl, by unfold detectTotalsArbitrage detectTotalsBody; rw [hl]⟩
  · intro eng data B h
    unfold calculateOptimalStakes calculateOptimalStakesBody
    rw [impliedProbsE_zero data h]

/-- Witness for C10 at concrete inputs: the three detectors on `gC6` and the
stake calculator on a zero-price outcome. -/
theorem c10_witness :
    (∃ l, detectMoneylineBody defaultEngine gC6 = .ok l ∧
       detectMoneylineArbitrage defaultEngine gC6 = l) ∧
    (∃ l, detectSpreadBody defaultEngine gC6 = .ok l ∧
       detectSpreadArbitrage defaultEngine gC6 = l) ∧
    (∃ l, detectTotalsBody defaultEngine gC6 = .ok l ∧
       detectTotalsArbitrage defaultEngine gC6 = l) ∧
    calculateOptimalStakes defaultEngine [("A", 0)] 1 = none :=
  ⟨c10_error_absorption.1 defaultEngine gC6,
   c10_error_absorption.2.1 defaultEngine gC6,
   c10_error_absorption.2.2.1 defaultEngine gC6,
   c10_error_absorption.2.2.2 defaultEngine [("A", 0)] 1
     ⟨("A", 0), List.mem_singleton.2 rfl, rfl⟩⟩

end WNBA
